import Mathlib

/-!
Verification development for the mcp-image-extractor fork: a shallow embedding of
the content resolution and normalization pipeline (source classification, region
extraction, bounded resize, compression fallback, PDF page rendering glue) together
with theorems about its behaviour.

JavaScript numbers are embedded as rationals (`ℚ`); `Math.round` is embedded as
`jsRound` (round half toward positive infinity, which is JavaScript's semantics).
Buffers/raster images are embedded as an `Image` record carrying the decoded
dimensions, the detected format, and opaque payload/byte-size stamps; external
collaborators (the sharp crop/resize/encode primitives, the pdf renderer, the
filesystem, Node's forgiving base64 decoder) are either modelled from their
specified interface contract or passed in as explicit function arguments.
-/

namespace ImgX

/-- JavaScript `Math.round`: round half away from negative infinity, i.e. `⌊x + 1/2⌋`.
Written with `Rat.floor` so the definition is directly computable. -/
def jsRound (x : ℚ) : ℤ := Rat.floor (x + 1/2)

/-- A decoded raster image buffer: dimensions and format as reported by sharp's
`metadata()`, plus opaque stamps standing for the pixel payload and byte length. -/
structure Image where
  width : ℕ
  height : ℕ
  format : String
  payload : ℕ
  byteSize : ℕ
deriving DecidableEq

/-- A crop rectangle as passed to sharp's `extract` (left/top/width/height). -/
structure CropRect where
  left : ℤ
  top : ℤ
  width : ℤ
  height : ℤ
deriving DecidableEq

/-- Embedding of `encodeRect` stamps a rectangle into a natural number (payload bookkeeping). -/
def encodeRect (c : CropRect) : ℕ :=
  Nat.pair c.left.toNat (Nat.pair c.top.toNat (Nat.pair c.width.toNat c.height.toNat))

/-- Modelled from the spec: the external crop primitive (sharp `.extract`) returns an
image of exactly the requested rectangle's dimensions; the pixel content is abstracted
as a payload stamp derived from the source payload and the rectangle. -/
def extractRegion (img : Image) (c : CropRect) : Image :=
  { width := c.width.toNat
    height := c.height.toNat
    format := img.format
    payload := Nat.pair 2 (Nat.pair img.payload (encodeRect c))
    byteSize := Nat.pair 2 (Nat.pair img.payload (encodeRect c)) }

/-- Embedding of `isRatio` from `src/src/image-utils.ts`: all values between 0 and 1 inclusive. -/
def isRatio (values : List ℚ) : Bool :=
  values.all (fun v => decide (0 ≤ v) && decide (v ≤ 1))

/-- The raw (pre-clamp) crop rectangle computed by `applyImageFocus`
(`src/src/image-utils.ts` lines 156-189): `focus_xyxy` takes priority when it has
exactly four entries, otherwise a four-entry `focal_point` is used; each branch
resolves the four numbers in ratio mode (multiplied by the source dimensions) when
`isRatio` holds, else as absolute pixels.  `none` corresponds to `shouldCrop`
staying false. -/
def rawRect (W H : ℕ) (fxy fp : Option (List ℚ)) : Option CropRect :=
  match fxy with
  | some [x1, y1, x2, y2] =>
    if isRatio [x1, y1, x2, y2] then
      some ⟨jsRound (x1 * W), jsRound (y1 * H),
            jsRound ((x2 - x1) * W), jsRound ((y2 - y1) * H)⟩
    else
      some ⟨jsRound x1, jsRound y1, jsRound (x2 - x1), jsRound (y2 - y1)⟩
  | _ =>
    match fp with
    | some [cx, cy, hw, hh] =>
      if isRatio [cx, cy, hw, hh] then
        some ⟨jsRound (cx * W - hw * W), jsRound (cy * H - hh * H),
              jsRound (hw * W * 2), jsRound (hh * H * 2)⟩
      else
        some ⟨jsRound (cx - hw), jsRound (cy - hh), jsRound (hw * 2), jsRound (hh * 2)⟩
    | _ => none

/-- Embedding of `focus_xyxy && focus_xyxy.length === 4` (truthiness of the optional array plus
the length test), as used in the guard on line 147 of `src/src/image-utils.ts`. -/
def validFour (o : Option (List ℚ)) : Bool :=
  match o with
  | some l => l.length == 4
  | none => false

/-- The clamping step of `applyImageFocus` (`src/src/image-utils.ts` lines 191-206):
clamp left/top to ≥ 0, then shrink width/height to fit the source bounds. -/
def clampRect (W H : ℕ) (r : CropRect) : CropRect :=
  let left := max 0 r.left
  let top := max 0 r.top
  let width := if (W : ℤ) < left + r.width then (W : ℤ) - left else r.width
  let height := if (H : ℤ) < top + r.height then (H : ℤ) - top else r.height
  ⟨left, top, width, height⟩

/-- Embedding of `applyImageFocus` (`src/src/image-utils.ts` lines 141-216), embedded as the crop
rectangle it passes to sharp's `extract`: `none` means no crop is performed (wrong
parameter shapes, missing metadata, or a non-positive clamped dimension). -/
def applyImageFocus (W H : ℕ) (fxy fp : Option (List ℚ)) : Option CropRect :=
  if !validFour fxy && !validFour fp then none
  else if W == 0 || H == 0 then none
  else
    match rawRect W H fxy fp with
    | some r =>
      let c := clampRect W H r
      if 0 < c.width ∧ 0 < c.height then some c else none
    | none => none

/-- A JSON metadata value (only strings and numbers occur in the pipeline). -/
inductive JsonVal where
  | str (s : String)
  | num (q : ℚ)
deriving DecidableEq

/-- JavaScript object-key assignment on an association list: replace the first
binding of the key, or append a new binding.  This is the semantics of both the
object-spread `{...base, ...extra}` (per key of `extra`) and of property assignment. -/
def objSet (l : List (String × JsonVal)) (k : String) (v : JsonVal) :
    List (String × JsonVal) :=
  match l with
  | [] => [(k, v)]
  | (k', v') :: t => if k' = k then (k, v) :: t else (k', v') :: objSet t k v

/-- JavaScript object spread `{...base, ...extra}`. -/
def jsMerge (base extra : List (String × JsonVal)) : List (String × JsonVal) :=
  extra.foldl (fun acc kv => objSet acc kv.1 kv.2) base

def jsonValStr : JsonVal → String
  | .str s => "\"" ++ s ++ "\""
  | .num q => toString q

/-- Embedding of `JSON.stringify` on the flat metadata object (serialization shape only). -/
def jsonStringify (md : List (String × JsonVal)) : String :=
  "\x7b" ++ String.intercalate "," (md.map (fun kv => "\"" ++ kv.1 ++ "\":" ++ jsonValStr kv.2)) ++ "\x7d"

/-- Modelled from the spec: the external base64 text encoding of the final buffer
(`imageBuffer.toString('base64')`), abstracted as a deterministic stamp of the
buffer payload. -/
def imgBase64 (img : Image) : String := "b64-" ++ toString img.payload

/-- The advisory message added for large unfocused images
(`src/src/image-utils.ts` line 316). -/
def largeImageMsg (w h : ℕ) : String :=
  "Large image detected (" ++ toString w ++ "x" ++ toString h ++ " = " ++ toString (w * h) ++
  " pixels). Consider using focus_xyxy or focal_point to zoom into specific regions for better detail recognition and reduced token usage."

/-- Modelled from the spec: the external resize primitive (sharp `.resize` with
`fit: 'inside'` and `withoutEnlargement: true`) scales both dimensions by the single
factor `min(targetW/w, targetH/h)` capped at 1, so the result fits inside the target
box, preserves the aspect ratio, and never enlarges; pixel content is abstracted as
a payload stamp. -/
def sharpResizeInside (img : Image) (tW tH : ℕ) : Image :=
  let s : ℚ := min (min ((tW : ℚ) / (img.width : ℚ)) ((tH : ℚ) / (img.height : ℚ))) 1
  { width := (jsRound ((img.width : ℚ) * s)).toNat
    height := (jsRound ((img.height : ℚ) * s)).toNat
    format := img.format
    payload := Nat.pair 3 (Nat.pair img.payload (Nat.pair tW tH))
    byteSize := Nat.pair 3 (Nat.pair img.payload (Nat.pair tW tH)) }

/-- The bounded-resize step of `processImageBuffer` (`src/src/image-utils.ts`
lines 276-293): when the metadata has truthy dimensions, compute the target box
`min(width, maxW) × min(height, maxH)` and resize (fit inside, without enlarging)
only if a current dimension exceeds the target box. -/
def resizeStep (maxW maxH : ℕ) (img : Image) : Image :=
  if img.width == 0 || img.height == 0 then img
  else
    let targetW := min img.width maxW
    let targetH := min img.height maxH
    if targetW < img.width || targetH < img.height then
      sharpResizeInside img targetW targetH
    else img

/-- One part of an MCP tool response. -/
inductive ContentPart where
  | text (t : String)
  | image (data : String) (mime : String)
deriving DecidableEq

/-- The MCP tool response shape; a missing `isError` field is embedded as `false`. -/
structure McpToolResponse where
  content : List ContentPart
  isError : Bool
deriving DecidableEq

/-- Parameters of `processImageBuffer` (`ProcessImageBufferParams` in
`src/src/image-utils.ts`). -/
structure ProcessImageBufferParams where
  imageBuffer : Image
  format : String
  mimeType : String
  focus_xyxy : Option (List ℚ)
  focal_point : Option (List ℚ)
  extraMetadata : List (String × JsonVal)

/-- The buffer after the focus (crop) stage of `processImageBuffer`
(lines 269-274): the cropped buffer when `applyImageFocus` produced one, else the
original buffer unchanged. -/
def afterFocusImage (p : ProcessImageBufferParams) : Image :=
  match applyImageFocus p.imageBuffer.width p.imageBuffer.height p.focus_xyxy p.focal_point with
  | some c => extractRegion p.imageBuffer c
  | none => p.imageBuffer

/-- The buffer after the bounded-resize stage of `processImageBuffer`. -/
def afterResizeImage (maxW maxH : ℕ) (p : ProcessImageBufferParams) : Image :=
  resizeStep maxW maxH (afterFocusImage p)

/-- The buffer after the compression stage of `processImageBuffer`
(lines 295-300): the compressor's output on success, and the pre-compression
buffer when the compressor throws (`compressFn` returns `none`). -/
def afterCompressImage (compressFn : Image → String → Option Image)
    (maxW maxH : ℕ) (p : ProcessImageBufferParams) : Image :=
  match compressFn (afterResizeImage maxW maxH p) p.format with
  | some c => c
  | none => afterResizeImage maxW maxH p

/-- The metadata object built by `processImageBuffer` (lines 305-317): width,
height and format of the post-resize buffer, the byte size of the final buffer,
the caller's extra metadata spread over those, and the large-image advisory when
the original pixel count exceeds 300000 and no focus parameter was supplied. -/
def resultMetadata (compressFn : Image → String → Option Image)
    (maxW maxH : ℕ) (p : ProcessImageBufferParams) : List (String × JsonVal) :=
  let buf2 := afterResizeImage maxW maxH p
  let buf3 := afterCompressImage compressFn maxW maxH p
  let md0 := jsMerge
    [("width", .num buf2.width), ("height", .num buf2.height),
     ("format", .str buf2.format), ("size", .num buf3.byteSize)]
    p.extraMetadata
  let originalPixels := p.imageBuffer.width * p.imageBuffer.height
  let hasFocus := p.focus_xyxy.isSome || p.focal_point.isSome
  if 300000 < originalPixels && !hasFocus then
    objSet md0 "info" (.str (largeImageMsg p.imageBuffer.width p.imageBuffer.height))
  else md0

/-- Embedding of `processImageBuffer` (`src/src/image-utils.ts` lines 257-325): focus → resize →
compress (with local fallback) → base64 → response.  The compressor is the external
collaborator `compressFn` (`none` models a thrown compression error, caught on line
298).  The function never sets the error flag. -/
def processImageBuffer (compressFn : Image → String → Option Image)
    (maxW maxH : ℕ) (p : ProcessImageBufferParams) : McpToolResponse :=
  { content :=
      [.text (jsonStringify (resultMetadata compressFn maxW maxH p)),
       .image (imgBase64 (afterCompressImage compressFn maxW maxH p)) p.mimeType]
    isError := false }

/-- A character of the standard base64 alphabet (the class `[A-Za-z0-9+/]`). -/
def isBase64Char (c : Char) : Bool :=
  ('A' ≤ c && c ≤ 'Z') || ('a' ≤ c && c ≤ 'z') || ('0' ≤ c && c ≤ '9') || c == '+' || c == '/'

/-- JavaScript's `\s` character class (whitespace as stripped by `replace(/\s+/g, '')`). -/
def isJsSpace (c : Char) : Bool :=
  c == ' ' || c == '\t' || c == '\n' || c == '\r' || c == '\x0b' || c == '\x0c' ||
  c == '\u00a0' || c == '\u1680' || ('\u2000' ≤ c && c ≤ '\u200a') ||
  c == '\u2028' || c == '\u2029' || c == '\u202f' || c == '\u205f' ||
  c == '\u3000' || c == '\ufeff'

/-- Embedding of `str.replace(/\s+/g, '')` on the character list. -/
def stripWsL (l : List Char) : List Char := l.filter (fun c => !isJsSpace c)

/-- The regular expression `^[A-Za-z0-9+/]+={0,2}$`: at most two trailing padding
characters after a non-empty run of base64-alphabet characters. -/
def b64BodyPad (l : List Char) : Bool :=
  let rev := l.reverse
  let pad := rev.takeWhile (fun c => c == '=')
  let body := rev.dropWhile (fun c => c == '=')
  decide (pad.length ≤ 2) && !body.isEmpty && body.all isBase64Char

/-- Embedding of `isValidBase64` from the `read-visual` module: length at least 100, whitespace
stripped away, remaining length a multiple of 4, and matching the base64 pattern. -/
def isValidBase64 (s : String) : Bool :=
  if s.length < 100 then false
  else
    let b64 := stripWsL s.data
    if b64.length % 4 != 0 then false
    else b64BodyPad b64

/-- Prefix test on the underlying character lists (`String.startsWith`). -/
def strStarts (s pre : String) : Bool := pre.data.isPrefixOf s.data

def isSep (c : Char) : Bool := c == '\\' || c == '/'

def isAsciiLetter (c : Char) : Bool := ('A' ≤ c && c ≤ 'Z') || ('a' ≤ c && c ≤ 'z')

def isAlnum (c : Char) : Bool := isAsciiLetter c || ('0' ≤ c && c ≤ '9')

/-- The regular expression `^[A-Za-z]:[\\/]`: a Windows drive-letter prefix. -/
def driveLetter : List Char → Bool
  | c0 :: c1 :: c2 :: _ => isAsciiLetter c0 && c1 == ':' && isSep c2
  | _ => false

/-- Embedding of `str.startsWith('\\\\')`: a Windows UNC prefix (two backslashes). -/
def uncPrefixB : List Char → Bool
  | c0 :: c1 :: _ => c0 == '\\' && c1 == '\\'
  | _ => false

/-- Embedding of `str.startsWith('/')`. -/
def leadingSlash : List Char → Bool
  | c :: _ => c == '/'
  | _ => false

/-- The regular expression `^\.{0,2}[\\/]`: up to two leading dots followed by a
path separator. -/
def dotSep : List Char → Bool
  | [] => false
  | c :: rest =>
    if c == '.' then
      match rest with
      | [] => false
      | c2 :: rest2 =>
        if c2 == '.' then
          match rest2 with
          | [] => false
          | c3 :: _ => isSep c3
        else isSep c2
    else isSep c

/-- The regular expression `/\.[a-zA-Z0-9]+$/`: the string ends in a dot followed by
one or more alphanumerics. -/
def hasDotExt (l : List Char) : Bool :=
  let rev := l.reverse
  !(rev.takeWhile isAlnum).isEmpty &&
  (match rev.dropWhile isAlnum with
   | c :: _ => c == '.'
   | [] => false)

/-- Embedding of `isFilePath` from the `read-visual` module (lines 349-366): drive-letter prefix,
UNC prefix, leading `/`, the `^\.{0,2}[\\/]` pattern, or a trailing dot-extension on
a space-free string shorter than 500 characters. -/
def isFilePath (s : String) : Bool :=
  driveLetter s.data || uncPrefixB s.data || leadingSlash s.data || dotSep s.data ||
  (hasDotExt s.data && !(s.data.contains ' ') && decide (s.data.length < 500))

inductive SourceType where
  | url
  | file
  | base64
deriving DecidableEq

/-- Embedding of `detectSourceType` from the `read-visual` module (lines 315-344).  The
`fs.existsSync` probe inside the file-path branch has no effect on the returned
classification (both branches return `'file'`), so the classifier is a pure
function of the reference string. -/
def detectSourceType (s : String) : SourceType :=
  if strStarts s "http://" || strStarts s "https://" then .url
  else if strStarts s "data:" then .base64
  else if isFilePath s then .file
  else if isValidBase64 s then .base64
  else .file

/-- Definition following the specification's words (claim C5 / spec §4.1): the
first-match cascade with the filesystem-path shape described as drive-letter
prefix, UNC prefix, leading `/`, leading `./` or `../`, or a short no-space
dot-extension, and the plausible-base64 test as length ≥ 100, stripped length a
multiple of 4, and base64 alphabet with optional padding. -/
def specFilePathShape (s : String) : Bool :=
  driveLetter s.data || uncPrefixB s.data || leadingSlash s.data ||
  strStarts s "./" || strStarts s "../" ||
  (hasDotExt s.data && !(s.data.contains ' ') && decide (s.data.length < 500))

/-- Definition following the specification's words (claim C5 / spec §4.1, step 4):
a plausible base64 string. -/
def specLooksB64 (s : String) : Bool :=
  decide (100 ≤ s.length) && (stripWsL s.data).length % 4 == 0 && b64BodyPad (stripWsL s.data)

/-- Definition following the specification's words (claim C5): the claimed
first-match decision order of the source classifier. -/
def specClassify (s : String) : SourceType :=
  if strStarts s "http://" || strStarts s "https://" then .url
  else if strStarts s "data:" then .base64
  else if specFilePathShape s then .file
  else if specLooksB64 s then .base64
  else .file

/-- An opened PDF document as returned by the external `pdf-to-img` collaborator:
a total page count and, per 1-based page number, the rendered page image. -/
structure PdfDoc where
  pageCount : ℕ
  pageImage : ℕ → Image

/-- Embedding of `renderPdfPage` from the `read-visual` module (lines 420-440): open the document
at scale `dpi / 72` through the external collaborator `pdfCollab` (whose `.error`
models a thrown open failure), fail when the page count cannot be determined, fail
with the page/total out-of-range message when the requested page is outside
`[1, pageCount]`, else render exactly the requested page. -/
def renderPdfPage (pdfCollab : String → ℚ → Except String PdfDoc)
    (input : String) (pageNum : ℤ) (dpi : ℚ) : Except String (Image × ℕ) :=
  match pdfCollab input (dpi / 72) with
  | .error e => .error e
  | .ok doc =>
    if doc.pageCount == 0 then .error "Failed to determine PDF page count"
    else if pageNum < 1 || (doc.pageCount : ℤ) < pageNum then
      .error ("Page " ++ toString pageNum ++ " is out of range. Document has " ++
              toString doc.pageCount ++ " page(s).")
    else .ok (doc.pageImage pageNum.toNat, doc.pageCount)

/-- Parameters of `readVisual` (`ReadVisualParams` in the `read-visual` module). -/
structure ReadVisualParams where
  source : String
  page : Option ℤ
  dpi : Option ℚ
  focus_xyxy : Option (List ℚ)
  focal_point : Option (List ℚ)
  mime_type : Option String

/-- Embedding of `processPdf` from the `read-visual` module (lines 445-467), composed with the
surrounding `readVisual` catch (lines 512-518) which turns a thrown render error
into the `Error: ...` text response with the error flag set. -/
def processPdf (pdfCollab : String → ℚ → Except String PdfDoc)
    (compressFn : Image → String → Option Image) (maxW maxH : ℕ) (defaultDpi : ℚ)
    (input : String) (params : ReadVisualParams) : McpToolResponse :=
  let page := params.page.getD 1
  let dpi := params.dpi.getD defaultDpi
  match renderPdfPage pdfCollab input page dpi with
  | .error e => { content := [.text ("Error: " ++ e)], isError := true }
  | .ok (png, pageCount) =>
    processImageBuffer compressFn maxW maxH
      { imageBuffer := png
        format := "png"
        mimeType := "image/png"
        focus_xyxy := params.focus_xyxy
        focal_point := params.focal_point
        extraMetadata :=
          [("source", .str "pdf"), ("page", .num page),
           ("totalPages", .num pageCount), ("dpi", .num dpi)] }

/-- Embedding of `getMimeAndFormat` from `src/src/image-utils.ts` (lines 219-238), returning
`(mimeType, format)`. -/
def getMimeAndFormat (fileExt : String) : String × String :=
  if fileExt = ".png" then ("image/png", "png")
  else if fileExt = ".jpg" ∨ fileExt = ".jpeg" then ("image/jpeg", "jpeg")
  else if fileExt = ".gif" then ("image/gif", "gif")
  else if fileExt = ".webp" then ("image/webp", "webp")
  else if fileExt = ".svg" then ("image/png", "png")
  else if fileExt = ".avif" then ("image/avif", "avif")
  else ("image/jpeg", "jpeg")

/-- Embedding of `ExtractImageFromFileParams` from `src/src/image-utils.ts` (lines 35-42).
`resize`, `max_width` and `max_height` are declared parameters of the entry point. -/
structure ExtractImageFromFileParams where
  file_path : String
  resize : Bool
  max_width : ℚ
  max_height : ℚ
  focus_xyxy : Option (List ℚ)
  focal_point : Option (List ℚ)

/-- Embedding of `extractImageFromFile` from `src/src/image-utils.ts` (lines 328-365).  The
filesystem read is the external collaborator `fsRead` (`none` models a missing
file), `extname` is Node's `path.extname`, and the maximum size and default output
box come from the environment configuration. -/
def extractImageFromFile (fsRead : String → Option Image) (extname : String → String)
    (compressFn : Image → String → Option Image) (maxW maxH maxSize : ℕ)
    (p : ExtractImageFromFileParams) : McpToolResponse :=
  match fsRead p.file_path with
  | none =>
    { content := [.text ("Error: File " ++ p.file_path ++ " does not exist")]
      isError := true }
  | some img =>
    if maxSize < img.byteSize then
      { content := [.text ("Error: Image size exceeds maximum allowed size of " ++
                           toString maxSize ++ " bytes")]
        isError := true }
    else
      let mf := getMimeAndFormat ((extname p.file_path).toLower)
      processImageBuffer compressFn maxW maxH
        { imageBuffer := img, format := mf.2, mimeType := mf.1,
          focus_xyxy := p.focus_xyxy, focal_point := p.focal_point, extraMetadata := [] }

/-- Embedding of `ExtractPdfFromFileParams` from the `pdf-utils` module (lines 77-85). -/
structure ExtractPdfFromFileParams where
  file_path : String
  page : ℤ
  resize : Bool
  max_width : ℚ
  max_height : ℚ
  focus_xyxy : Option (List ℚ)
  focal_point : Option (List ℚ)

/-- Embedding of `extractPdfFromFile` from the `pdf-utils` module (lines 108-152).  `fsSize`
models `fs.existsSync`/`readFileSync` (the byte length of the file, `none` when
missing), `pdfCollab` the external renderer, `pdfDpi` the configured `PDF_DPI`. -/
def extractPdfFromFile (fsSize : String → Option ℕ)
    (pdfCollab : String → ℚ → Except String PdfDoc)
    (compressFn : Image → String → Option Image) (maxW maxH maxSize : ℕ) (pdfDpi : ℚ)
    (p : ExtractPdfFromFileParams) : McpToolResponse :=
  match fsSize p.file_path with
  | none =>
    { content := [.text ("Error: File " ++ p.file_path ++ " does not exist")]
      isError := true }
  | some len =>
    if maxSize < len then
      { content := [.text ("Error: PDF size exceeds maximum allowed size of " ++
                           toString maxSize ++ " bytes")]
        isError := true }
    else
      match renderPdfPage pdfCollab p.file_path p.page pdfDpi with
      | .error e => { content := [.text ("Error: " ++ e)], isError := true }
      | .ok (png, pageCount) =>
        processImageBuffer compressFn maxW maxH
          { imageBuffer := png, format := "png", mimeType := "image/png",
            focus_xyxy := p.focus_xyxy, focal_point := p.focal_point,
            extraMetadata :=
              [("source", .str "pdf"), ("page", .num p.page),
               ("totalPages", .num pageCount), ("dpi", .num pdfDpi)] }

/-- Modelled from the spec (external collaborator): the byte length produced by
Node's forgiving `Buffer.from(s, 'base64')` decoder, which ignores characters
outside the base64 alphabet (including whitespace and padding); every complete
group of four alphabet characters yields three bytes and a trailing group of two
or three characters yields one or two bytes. -/
def nodeBase64DecodedLen (s : String) : ℕ :=
  let k := (s.data.filter isBase64Char).length
  3 * (k / 4) + (if k % 4 == 3 then 2 else if k % 4 == 2 then 1 else 0)

/-- The structural base64 validity predicate as worded by the specification and
claim C6: every character (after whitespace stripping) in the base64 alphabet with
optional padding, and stripped length a multiple of 4. -/
def specStructuralB64 (s : String) : Bool :=
  (stripWsL s.data).length % 4 == 0 && b64BodyPad (stripWsL s.data)

/-- Embedding of `ExtractImageFromBase64Params` from `src/src/image-utils.ts` (lines 53-61),
restricted to the fields the function reads. -/
structure ExtractImageFromBase64Params where
  base64 : String
  mime_type : String
  focus_xyxy : Option (List ℚ)
  focal_point : Option (List ℚ)

/-- Embedding of `mime_type.split('/')[1] || 'jpeg'`. -/
def mimeSubtype (mime : String) : String :=
  match (mime.splitOn "/").get? 1 with
  | some t => if t = "" then "jpeg" else t
  | none => "jpeg"

/-- Embedding of `extractImageFromBase64` from `src/src/image-utils.ts` (lines 413-464).
`Buffer.from(base64, 'base64')` never throws; the only inline-data error branch
fires when the forgiving decode is empty.  `sharpDecode` is the external image
decoder (`.error` models a thrown `sharp().metadata()`, caught on lines 441-446);
its `format` being `""` models a missing `metadata.format`. -/
def extractImageFromBase64 (sharpDecode : String → Except String Image)
    (compressFn : Image → String → Option Image) (maxW maxH maxSize : ℕ)
    (p : ExtractImageFromBase64Params) : McpToolResponse :=
  let bufLen := nodeBase64DecodedLen p.base64
  if bufLen == 0 then
    { content := [.text "Error: Invalid base64 string - decoded to empty buffer"]
      isError := true }
  else if maxSize < bufLen then
    { content := [.text ("Error: Image size exceeds maximum allowed size of " ++
                         toString maxSize ++ " bytes")]
      isError := true }
  else
    match sharpDecode p.base64 with
    | .error e =>
      { content := [.text ("Error: Could not process image data - " ++ e)]
        isError := true }
    | .ok img =>
      let format := if img.format = "" then mimeSubtype p.mime_type else img.format
      processImageBuffer compressFn maxW maxH
        { imageBuffer := img, format := format, mimeType := p.mime_type,
          focus_xyxy := p.focus_xyxy, focal_point := p.focal_point, extraMetadata := [] }

/-- A line-terminator character (not matched by `.` in a JavaScript regular
expression without the `s` flag). -/
def isLineTerm (c : Char) : Bool :=
  c == '\n' || c == '\r' || c == '\u2028' || c == '\u2029'

/-- Embedding of `parseDataUrl` from the `read-visual` module (lines 401-405): the regular
expression `^data:([^;]+);base64,(.+)$` split into its components
(non-empty mime part up to the first `;`, the literal `;base64,`, a non-empty
single-line payload). -/
def parseDataUrl (s : String) : Option (String × String) :=
  if strStarts s "data:" then
    let rest := s.data.drop 5
    let mime := rest.takeWhile (fun c => !(c == ';'))
    let after := rest.dropWhile (fun c => !(c == ';'))
    if mime.isEmpty then none
    else if ";base64,".data.isPrefixOf after then
      let payload := after.drop 8
      if payload.isEmpty || payload.any isLineTerm then none
      else some (⟨mime⟩, ⟨payload⟩)
    else none
  else none

/-- The outcome of the validation prefix of `handleBase64`. -/
inductive B64Validation where
  | invalidDataUrl
  | invalidB64
  | emptyDecode
  | tooLarge
  | proceed (base64Data : String) (mime : String)
deriving DecidableEq

/-- The validation prefix of `handleBase64` from the `read-visual` module
(lines 603-647): data-URL parsing or raw whitespace stripping, `isValidBase64`,
the empty-decode check on the forgiving decode, and the size ceiling; `proceed`
carries the base64 payload and effective mime type handed to the PDF/image
continuation. -/
def handleBase64Validation (maxSize : ℕ) (source : String) (mimeHint : Option String) :
    B64Validation :=
  let mimeDefault :=
    match mimeHint with
    | some m => if m = "" then "image/png" else m
    | none => "image/png"
  let step : String → String → B64Validation := fun base64Data mime =>
    if !isValidBase64 base64Data then .invalidB64
    else if nodeBase64DecodedLen base64Data == 0 then .emptyDecode
    else if maxSize < nodeBase64DecodedLen base64Data then .tooLarge
    else .proceed base64Data mime
  if strStarts source "data:" then
    match parseDataUrl source with
    | none => .invalidDataUrl
    | some (mime, payload) => step payload mime
  else
    step ⟨stripWsL source.data⟩ mimeDefault

end ImgX

namespace ImgX

theorem jsRound_eq (x : ℚ) : jsRound x = Int.floor (x + 1/2) := rfl

theorem rawRect_xyxy_check :
    rawRect 100 100 (some [(1:ℚ)/10, 1/10, 6/10, 6/10]) none = some ⟨10, 10, 50, 50⟩ := by
  norm_num [rawRect, isRatio, jsRound_eq, Int.floor_eq_iff]

theorem applyImageFocus_check :
    applyImageFocus 100 100 (some [(10:ℚ), 10, 60, 60]) none = some ⟨10, 10, 50, 50⟩ := by
  norm_num [applyImageFocus, rawRect, clampRect, isRatio, validFour, jsRound_eq,
    Int.floor_eq_iff]

theorem applyImageFocus_oob_check :
    applyImageFocus 100 100 (some [(90:ℚ), 90, 200, 200]) none = some ⟨90, 90, 10, 10⟩ := by
  norm_num [applyImageFocus, rawRect, clampRect, isRatio, validFour, jsRound_eq,
    Int.floor_eq_iff]

theorem applyImageFocus_degenerate_check :
    applyImageFocus 100 100 (some [(150:ℚ), 10, 160, 20]) none = none := by
  norm_num [applyImageFocus, rawRect, clampRect, isRatio, validFour, jsRound_eq,
    Int.floor_eq_iff]

/-- C1: for a four-number region parameter, the crop coordinates are resolved in
ratio mode (each value multiplied by the source width/height) exactly when all four
values lie in `[0, 1]`; otherwise — in particular whenever one value exceeds 1 — all
four are interpreted as absolute pixels.  The decision is all-or-nothing: the same
`isRatio` test selects the formula family for all four coordinates at once, for both
the `focus_xyxy` and the `focal_point` shape. -/
theorem region_ratio_all_or_nothing (W H : ℕ) (a b c d : ℚ) (fp : Option (List ℚ)) :
    ( isRatio [a, b, c, d] = true ↔
      (0 ≤ a ∧ a ≤ 1) ∧ (0 ≤ b ∧ b ≤ 1) ∧ (0 ≤ c ∧ c ≤ 1) ∧ (0 ≤ d ∧ d ≤ 1)) ∧
    (((0 ≤ a ∧ a ≤ 1) ∧ (0 ≤ b ∧ b ≤ 1) ∧ (0 ≤ c ∧ c ≤ 1) ∧ (0 ≤ d ∧ d ≤ 1)) →
      rawRect W H (some [a, b, c, d]) fp =
        some ⟨jsRound (a * W), jsRound (b * H),
              jsRound ((c - a) * W), jsRound ((d - b) * H)⟩) ∧
    (¬((0 ≤ a ∧ a ≤ 1) ∧ (0 ≤ b ∧ b ≤ 1) ∧ (0 ≤ c ∧ c ≤ 1) ∧ (0 ≤ d ∧ d ≤ 1)) →
      rawRect W H (some [a, b, c, d]) fp =
        some ⟨jsRound a, jsRound b, jsRound (c - a), jsRound (d - b)⟩) ∧
    (((0 ≤ a ∧ a ≤ 1) ∧ (0 ≤ b ∧ b ≤ 1) ∧ (0 ≤ c ∧ c ≤ 1) ∧ (0 ≤ d ∧ d ≤ 1)) →
      rawRect W H none (some [a, b, c, d]) =
        some ⟨jsRound (a * W - c * W), jsRound (b * H - d * H),
              jsRound (c * W * 2), jsRound (d * H * 2)⟩) ∧
    (¬((0 ≤ a ∧ a ≤ 1) ∧ (0 ≤ b ∧ b ≤ 1) ∧ (0 ≤ c ∧ c ≤ 1) ∧ (0 ≤ d ∧ d ≤ 1)) →
      rawRect W H none (some [a, b, c, d]) =
        some ⟨jsRound (a - c), jsRound (b - d), jsRound (c * 2), jsRound (d * 2)⟩) := by
  have hiff : isRatio [a, b, c, d] = true ↔
      (0 ≤ a ∧ a ≤ 1) ∧ (0 ≤ b ∧ b ≤ 1) ∧ (0 ≤ c ∧ c ≤ 1) ∧ (0 ≤ d ∧ d ≤ 1) := by
    simp [ isRatio, and_assoc]
  refine ⟨hiff, ?_, ?_, ?_, ?_⟩
  · intro h
    have : isRatio [a, b, c, d] = true := hiff.mpr h
    simp [rawRect, this]
  · intro h
    have : isRatio [a, b, c, d] = false := by
      rcases Bool.eq_false_or_eq_true ( isRatio [a, b, c, d]) with ht | hf
      · exact absurd (hiff.mp ht) h
      · exact hf
    simp [rawRect, this]
  · intro h
    have : isRatio [a, b, c, d] = true := hiff.mpr h
    simp [rawRect, this]
  · intro h
    have : isRatio [a, b, c, d] = false := by
      rcases Bool.eq_false_or_eq_true ( isRatio [a, b, c, d]) with ht | hf
      · exact absurd (hiff.mp ht) h
      · exact hf
    simp [rawRect, this]

/-- Witness for `region_ratio_all_or_nothing`: spec scenario B, a 100×100 image with
ratio spec `[0.1, 0.1, 0.6, 0.6]` resolves via multiplication by the dimensions. -/
theorem region_ratio_all_or_nothing_witness :
    rawRect 100 100 (some [(1:ℚ)/10, 1/10, 6/10, 6/10]) none =
      some ⟨jsRound ((1:ℚ)/10 * 100), jsRound ((1:ℚ)/10 * 100),
            jsRound ((6/10 - 1/10 : ℚ) * 100), jsRound ((6/10 - 1/10 : ℚ) * 100)⟩ :=
  (region_ratio_all_or_nothing 100 100 ((1:ℚ)/10) (1/10) (6/10) (6/10) none).2.1
    (by norm_num)

/-- C2: whenever `applyImageFocus` actually extracts a rectangle, that rectangle has
non-negative left/top, strictly positive width/height, and lies entirely inside the
source bounds (so sharp `extract`'s out-of-bounds error cannot fire); whenever the
clamped width or height is non-positive, no crop is performed, the pipeline keeps
the original buffer unchanged, and no error is reported. -/
theorem applyImageFocus_clamped_safe (W H : ℕ) (fxy fp : Option (List ℚ)) :
    (∀ c, applyImageFocus W H fxy fp = some c →
      0 ≤ c.left ∧ 0 ≤ c.top ∧ 0 < c.width ∧ 0 < c.height ∧
      c.left + c.width ≤ (W : ℤ) ∧ c.top + c.height ≤ (H : ℤ)) ∧
    (∀ r, rawRect W H fxy fp = some r →
      ((clampRect W H r).width ≤ 0 ∨ (clampRect W H r).height ≤ 0) →
      applyImageFocus W H fxy fp = none) ∧
    (∀ (compressFn : Image → String → Option Image) (maxW maxH : ℕ)
       (p : ProcessImageBufferParams),
      applyImageFocus p.imageBuffer.width p.imageBuffer.height
          p.focus_xyxy p.focal_point = none →
      afterFocusImage p = p.imageBuffer ∧
      (processImageBuffer compressFn maxW maxH p).isError = false) := by
  refine ⟨?_, ?_, ?_⟩
  · intro c h
    unfold applyImageFocus at h
    split at h
    · exact absurd h (by simp)
    · split at h
      · exact absurd h (by simp)
      · cases hr : rawRect W H fxy fp with
        | none => rw [hr] at h; exact absurd h (by simp)
        | some r =>
          rw [hr] at h
          simp only at h
          split at h
          · rename_i hpos
            have hc : clampRect W H r = c := by
              exact Option.some_inj.mp h
            subst hc
            simp only [clampRect] at hpos ⊢
            refine ⟨le_max_left _ _, le_max_left _ _, hpos.1, hpos.2, ?_, ?_⟩
            · split_ifs with h1
              · omega
              · omega
            · split_ifs with h1
              · omega
              · omega
          · exact absurd h (by simp)
  · intro r hr hle
    unfold applyImageFocus
    split
    · rfl
    · split
      · rfl
      · rw [hr]
        simp only
        split
        · rename_i hpos
          exfalso
          rcases hle with hle | hle
          · exact absurd hpos.1 (by omega)
          · exact absurd hpos.2 (by omega)
        · rfl
  · intro compressFn maxW maxH p h
    constructor
    · unfold afterFocusImage
      rw [h]
    · rfl

/-- Witness for `applyImageFocus_clamped_safe`: on a 100×100 image the crop
`[90, 90, 200, 200]` is clamped to the in-bounds rectangle `⟨90, 90, 10, 10⟩`. -/
theorem applyImageFocus_clamped_safe_witness :
    0 ≤ (CropRect.mk 90 90 10 10).left ∧ 0 ≤ (CropRect.mk 90 90 10 10).top ∧
    0 < (CropRect.mk 90 90 10 10).width ∧ 0 < (CropRect.mk 90 90 10 10).height ∧
    (CropRect.mk 90 90 10 10).left + (CropRect.mk 90 90 10 10).width ≤ ((100:ℕ) : ℤ) ∧
    (CropRect.mk 90 90 10 10).top + (CropRect.mk 90 90 10 10).height ≤ ((100:ℕ) : ℤ) :=
  (applyImageFocus_clamped_safe 100 100 (some [(90:ℚ), 90, 200, 200]) none).1
    ⟨90, 90, 10, 10⟩ applyImageFocus_oob_check

/-- C7: a compression failure is never surfaced: `processImageBuffer` always returns
a successful (non-error) response consisting of a text metadata part and an image
part, and when the compressor fails the pipeline falls back to the pre-compression
buffer. -/
theorem compression_failure_not_surfaced (compressFn : Image → String → Option Image)
    (maxW maxH : ℕ) (p : ProcessImageBufferParams) :
    (processImageBuffer compressFn maxW maxH p).isError = false ∧
    (∃ t dat, (processImageBuffer compressFn maxW maxH p).content =
      [ContentPart.text t, ContentPart.image dat p.mimeType]) ∧
    (compressFn (afterResizeImage maxW maxH p) p.format = none →
      afterCompressImage compressFn maxW maxH p = afterResizeImage maxW maxH p ∧
      (processImageBuffer compressFn maxW maxH p).content =
        [ContentPart.text (jsonStringify (resultMetadata compressFn maxW maxH p)),
         ContentPart.image (imgBase64 (afterResizeImage maxW maxH p)) p.mimeType]) := by
  refine ⟨rfl, ⟨_, _, rfl⟩, ?_⟩
  intro h
  have hfall : afterCompressImage compressFn maxW maxH p = afterResizeImage maxW maxH p := by
    unfold afterCompressImage
    rw [h]
  refine ⟨hfall, ?_⟩
  simp only [processImageBuffer, hfall]

/-- Witness for `compression_failure_not_surfaced`: an always-failing compressor on a
concrete buffer still yields the non-error text+image response from the
pre-compression bytes. -/
theorem compression_failure_not_surfaced_witness :
    (processImageBuffer (fun _ _ => none) 512 512
        ⟨⟨100, 80, "png", 7, 1000⟩, "png", "image/png", none, none, []⟩).isError = false ∧
    (∃ t dat, (processImageBuffer (fun _ _ => none) 512 512
        ⟨⟨100, 80, "png", 7, 1000⟩, "png", "image/png", none, none, []⟩).content =
      [ContentPart.text t, ContentPart.image dat "image/png"]) ∧
    ((fun (_ : Image) (_ : String) => (none : Option Image))
        (afterResizeImage 512 512 ⟨⟨100, 80, "png", 7, 1000⟩, "png", "image/png", none, none, []⟩)
        "png" = none →
      afterCompressImage (fun _ _ => none) 512 512
          ⟨⟨100, 80, "png", 7, 1000⟩, "png", "image/png", none, none, []⟩ =
        afterResizeImage 512 512 ⟨⟨100, 80, "png", 7, 1000⟩, "png", "image/png", none, none, []⟩ ∧
      (processImageBuffer (fun _ _ => none) 512 512
          ⟨⟨100, 80, "png", 7, 1000⟩, "png", "image/png", none, none, []⟩).content =
        [ContentPart.text (jsonStringify (resultMetadata (fun _ _ => none) 512 512
            ⟨⟨100, 80, "png", 7, 1000⟩, "png", "image/png", none, none, []⟩)),
         ContentPart.image (imgBase64 (afterResizeImage 512 512
            ⟨⟨100, 80, "png", 7, 1000⟩, "png", "image/png", none, none, []⟩)) "image/png"]) :=
  compression_failure_not_surfaced (fun _ _ => none) 512 512
    ⟨⟨100, 80, "png", 7, 1000⟩, "png", "image/png", none, none, []⟩

/-- C8: when `focus_xyxy` has exactly four entries, the crop is computed from it
alone — the result of both the raw-rectangle computation and the full focus step is
independent of any supplied `focal_point`. -/
theorem focus_xyxy_priority (W H : ℕ) (fxy fp : Option (List ℚ))
    (h : validFour fxy = true) :
    rawRect W H fxy fp = rawRect W H fxy none ∧
    applyImageFocus W H fxy fp = applyImageFocus W H fxy none := by
  obtain ⟨l, rfl⟩ : ∃ l, fxy = some l := by
    cases fxy with
    | none => exact absurd h (by simp [ validFour])
    | some l => exact ⟨l, rfl⟩
  have hlen : l.length = 4 := by simpa [ validFour] using h
  obtain ⟨a, b, c, d, rfl⟩ : ∃ a b c d, l = [a, b, c, d] := by
    match l, hlen with
    | [a, b, c, d], _ => exact ⟨a, b, c, d, rfl⟩
  constructor
  · rfl
  · rfl

/-- Witness for `focus_xyxy_priority`: with both region parameters supplied, the
`focal_point` is ignored. -/
theorem focus_xyxy_priority_witness :
    rawRect 100 100 (some [(10:ℚ), 10, 60, 60]) (some [(1:ℚ)/2, 1/2, 1/5, 1/5]) =
      rawRect 100 100 (some [(10:ℚ), 10, 60, 60]) none ∧
    applyImageFocus 100 100 (some [(10:ℚ), 10, 60, 60]) (some [(1:ℚ)/2, 1/2, 1/5, 1/5]) =
      applyImageFocus 100 100 (some [(10:ℚ), 10, 60, 60]) none :=
  focus_xyxy_priority 100 100 (some [(10:ℚ), 10, 60, 60])
    (some [(1:ℚ)/2, 1/2, 1/5, 1/5]) (by simp [ validFour])

/-- C9: when both region parameters are absent or have a length other than 4, no
crop is applied — the focus step returns the original buffer unchanged and the
pipeline proceeds without reporting an error. -/
theorem wrong_length_region_ignored (compressFn : Image → String → Option Image)
    (maxW maxH : ℕ) (p : ProcessImageBufferParams)
    (h1 : validFour p.focus_xyxy = false) (h2 : validFour p.focal_point = false) :
    applyImageFocus p.imageBuffer.width p.imageBuffer.height
        p.focus_xyxy p.focal_point = none ∧
    afterFocusImage p = p.imageBuffer ∧
    (processImageBuffer compressFn maxW maxH p).isError = false := by
  have hnone : applyImageFocus p.imageBuffer.width p.imageBuffer.height
      p.focus_xyxy p.focal_point = none := by
    unfold applyImageFocus
    simp [h1, h2]
  refine ⟨hnone, ?_, rfl⟩
  unfold afterFocusImage
  rw [hnone]

/-- Witness for `wrong_length_region_ignored`: a two-entry `focus_xyxy` and a
three-entry `focal_point` are both silently ignored. -/
theorem wrong_length_region_ignored_witness :
    applyImageFocus (100:ℕ) (100:ℕ) (some [(10:ℚ), 10]) (some [(1:ℚ), 2, 3]) = none ∧
    afterFocusImage ⟨⟨100, 100, "png", 7, 1000⟩, "png", "image/png",
        some [(10:ℚ), 10], some [(1:ℚ), 2, 3], []⟩ =
      ⟨100, 100, "png", 7, 1000⟩ ∧
    (processImageBuffer (fun i _ => some i) 512 512
        ⟨⟨100, 100, "png", 7, 1000⟩, "png", "image/png",
         some [(10:ℚ), 10], some [(1:ℚ), 2, 3], []⟩).isError = false :=
  wrong_length_region_ignored (fun i _ => some i) 512 512
    ⟨⟨100, 100, "png", 7, 1000⟩, "png", "image/png",
     some [(10:ℚ), 10], some [(1:ℚ), 2, 3], []⟩
    (by simp [ validFour]) (by simp [ validFour])

end ImgX

namespace ImgX

theorem jsRound_nonneg {x : ℚ} (h : 0 ≤ x) : 0 ≤ jsRound x := by
  rw [jsRound_eq]
  exact Int.le_floor.mpr (by push_cast; linarith)

theorem jsRound_le_natCast {x : ℚ} {n : ℕ} (h : x ≤ (n : ℚ)) : jsRound x ≤ (n : ℤ) := by
  rw [jsRound_eq]
  have h1 : x + 1/2 ≤ (n : ℚ) + 1/2 := by linarith
  calc Int.floor (x + 1/2) ≤ Int.floor ((n : ℚ) + 1/2) := Int.floor_le_floor h1
    _ = (n : ℤ) := by
        rw [show ((n : ℚ) + 1/2) = 1/2 + ((n : ℤ) : ℚ) by push_cast; ring,
          Int.floor_add_int]
        norm_num

theorem jsRound_natCast (n : ℕ) : jsRound (n : ℚ) = (n : ℤ) := by
  rw [jsRound_eq,
    show ((n : ℚ) + 1/2) = 1/2 + ((n : ℤ) : ℚ) by push_cast; ring,
    Int.floor_add_int]
  norm_num

/-- C4: the bounded-resize step never enlarges either dimension, its output fits
inside the box `min(width, maxW) × min(height, maxH)`, an image already inside the
box passes through at its original dimensions, and both output dimensions arise
from one common scale factor `s ≤ 1` (aspect ratio preserved). -/
theorem resize_bounded_no_upscale (maxW maxH : ℕ) (img : Image)
    (hw : 1 ≤ img.width) (hh : 1 ≤ img.height) (hW : 1 ≤ maxW) (hH : 1 ≤ maxH) :
    (resizeStep maxW maxH img).width ≤ img.width ∧
    (resizeStep maxW maxH img).height ≤ img.height ∧
    (resizeStep maxW maxH img).width ≤ min img.width maxW ∧
    (resizeStep maxW maxH img).height ≤ min img.height maxH ∧
    (img.width ≤ maxW ∧ img.height ≤ maxH → resizeStep maxW maxH img = img) ∧
    (∃ s : ℚ, 0 < s ∧ s ≤ 1 ∧
      ((resizeStep maxW maxH img).width : ℤ) = jsRound ((img.width : ℚ) * s) ∧
      ((resizeStep maxW maxH img).height : ℤ) = jsRound ((img.height : ℚ) * s)) := by
  have hz : (img.width == 0 || img.height == 0) = false := by
    simp only [Bool.or_eq_false_iff, beq_eq_false_iff_ne]
    omega
  by_cases hcond : (min img.width maxW < img.width || min img.height maxH < img.height) = true
  · -- the resize branch
    have hres : resizeStep maxW maxH img =
        sharpResizeInside img (min img.width maxW) (min img.height maxH) := by
      unfold resizeStep
      rw [hz]
      simp only [Bool.false_eq_true, if_false, hcond, if_true]
    have hwpos : (0 : ℚ) < (img.width : ℚ) := by exact_mod_cast Nat.lt_of_lt_of_le Nat.zero_lt_one hw
    have hhpos : (0 : ℚ) < (img.height : ℚ) := by exact_mod_cast Nat.lt_of_lt_of_le Nat.zero_lt_one hh
    have htW : 1 ≤ min img.width maxW := le_min hw hW
    have htH : 1 ≤ min img.height maxH := le_min hh hH
    have htWpos : (0 : ℚ) < ((min img.width maxW : ℕ) : ℚ) := by exact_mod_cast htW
    have htHpos : (0 : ℚ) < ((min img.height maxH : ℕ) : ℚ) := by exact_mod_cast htH
    set s : ℚ := min (min (((min img.width maxW : ℕ) : ℚ) / (img.width : ℚ))
      (((min img.height maxH : ℕ) : ℚ) / (img.height : ℚ))) 1 with hs_def
    have hs1 : s ≤ 1 := min_le_right _ _
    have hspos : 0 < s :=
      lt_min (lt_min (div_pos htWpos hwpos) (div_pos htHpos hhpos)) one_pos
    have hwmul : (img.width : ℚ) * s ≤ ((min img.width maxW : ℕ) : ℚ) := by
      have h1 : s ≤ ((min img.width maxW : ℕ) : ℚ) / (img.width : ℚ) :=
        le_trans (min_le_left _ _) (min_le_left _ _)
      have h2 := (le_div_iff₀ hwpos).mp h1
      linarith [mul_comm (img.width : ℚ) s]
    have hhmul : (img.height : ℚ) * s ≤ ((min img.height maxH : ℕ) : ℚ) := by
      have h1 : s ≤ ((min img.height maxH : ℕ) : ℚ) / (img.height : ℚ) :=
        le_trans (min_le_left _ _) (min_le_right _ _)
      have h2 := (le_div_iff₀ hhpos).mp h1
      linarith [mul_comm (img.height : ℚ) s]
    have hwle : (img.width : ℚ) * s ≤ (img.width : ℚ) :=
      mul_le_of_le_one_right (le_of_lt hwpos) hs1
    have hhle : (img.height : ℚ) * s ≤ (img.height : ℚ) :=
      mul_le_of_le_one_right (le_of_lt hhpos) hs1
    have hwidth : (resizeStep maxW maxH img).width = (jsRound ((img.width : ℚ) * s)).toNat := by
      rw [hres]; rfl
    have hheight : (resizeStep maxW maxH img).height = (jsRound ((img.height : ℚ) * s)).toNat := by
      rw [hres]; rfl
    have hwnn : 0 ≤ jsRound ((img.width : ℚ) * s) :=
      jsRound_nonneg (by positivity)
    have hhnn : 0 ≤ jsRound ((img.height : ℚ) * s) :=
      jsRound_nonneg (by positivity)
    refine ⟨?_, ?_, ?_, ?_, ?_, ⟨s, hspos, hs1, ?_, ?_⟩⟩
    · rw [hwidth]; exact Int.toNat_le.mpr (jsRound_le_natCast hwle)
    · rw [hheight]; exact Int.toNat_le.mpr (jsRound_le_natCast hhle)
    · rw [hwidth]; exact Int.toNat_le.mpr (jsRound_le_natCast hwmul)
    · rw [hheight]; exact Int.toNat_le.mpr (jsRound_le_natCast hhmul)
    · rintro ⟨hbw, hbh⟩
      exfalso
      simp only [Bool.or_eq_true, decide_eq_true_eq] at hcond
      omega
    · rw [hwidth, Int.toNat_of_nonneg hwnn]
    · rw [hheight, Int.toNat_of_nonneg hhnn]
  · -- no resize needed
    have hcond' : (min img.width maxW < img.width || min img.height maxH < img.height) = false :=
      Bool.eq_false_iff.mpr hcond
    have hres : resizeStep maxW maxH img = img := by
      unfold resizeStep
      rw [hz]
      simp only [Bool.false_eq_true, if_false, hcond']
    have hineq : img.width ≤ min img.width maxW ∧ img.height ≤ min img.height maxH := by
      simp only [Bool.or_eq_false_iff, decide_eq_false_iff_not, not_lt] at hcond'
      exact hcond'
    refine ⟨?_, ?_, ?_, ?_, fun _ => hres, ⟨1, one_pos, le_refl 1, ?_, ?_⟩⟩
    · rw [hres]
    · rw [hres]
    · rw [hres]; omega
    · rw [hres]; omega
    · rw [hres, mul_one, jsRound_natCast]
    · rw [hres, mul_one, jsRound_natCast]

/-- Witness for `resize_bounded_no_upscale`: a 1024×768 image bounded by a 512×512
box never upscales and fits the target box. -/
theorem resize_bounded_no_upscale_witness :
    (resizeStep 512 512 ⟨1024, 768, "png", 7, 1000⟩).width ≤ (Image.mk 1024 768 "png" 7 1000).width ∧
    (resizeStep 512 512 ⟨1024, 768, "png", 7, 1000⟩).height ≤ (Image.mk 1024 768 "png" 7 1000).height ∧
    (resizeStep 512 512 ⟨1024, 768, "png", 7, 1000⟩).width ≤ min (Image.mk 1024 768 "png" 7 1000).width 512 ∧
    (resizeStep 512 512 ⟨1024, 768, "png", 7, 1000⟩).height ≤ min (Image.mk 1024 768 "png" 7 1000).height 512 ∧
    ((Image.mk 1024 768 "png" 7 1000).width ≤ 512 ∧ (Image.mk 1024 768 "png" 7 1000).height ≤ 512 →
      resizeStep 512 512 ⟨1024, 768, "png", 7, 1000⟩ = ⟨1024, 768, "png", 7, 1000⟩) ∧
    (∃ s : ℚ, 0 < s ∧ s ≤ 1 ∧
      ((resizeStep 512 512 ⟨1024, 768, "png", 7, 1000⟩).width : ℤ) =
        jsRound (((Image.mk 1024 768 "png" 7 1000).width : ℚ) * s) ∧
      ((resizeStep 512 512 ⟨1024, 768, "png", 7, 1000⟩).height : ℤ) =
        jsRound (((Image.mk 1024 768 "png" 7 1000).height : ℚ) * s)) :=
  resize_bounded_no_upscale 512 512 ⟨1024, 768, "png", 7, 1000⟩
    (by norm_num) (by norm_num) (by norm_num) (by norm_num)

/-- C10: the `resize`, `max_width` and `max_height` parameters of the
`extract_image_from_file` and `extract_pdf_from_file` entry points have no effect:
two calls identical except in those three parameters return identical results, for
every behaviour of the external collaborators. -/
theorem resize_params_no_effect :
    (∀ (fsRead : String → Option Image) (extname : String → String)
       (compressFn : Image → String → Option Image) (maxW maxH maxSize : ℕ)
       (p q : ExtractImageFromFileParams),
      p.file_path = q.file_path → p.focus_xyxy = q.focus_xyxy →
      p.focal_point = q.focal_point →
      extractImageFromFile fsRead extname compressFn maxW maxH maxSize p =
        extractImageFromFile fsRead extname compressFn maxW maxH maxSize q) ∧
    (∀ (fsSize : String → Option ℕ) (pdfCollab : String → ℚ → Except String PdfDoc)
       (compressFn : Image → String → Option Image) (maxW maxH maxSize : ℕ) (pdfDpi : ℚ)
       (p q : ExtractPdfFromFileParams),
      p.file_path = q.file_path → p.page = q.page → p.focus_xyxy = q.focus_xyxy →
      p.focal_point = q.focal_point →
      extractPdfFromFile fsSize pdfCollab compressFn maxW maxH maxSize pdfDpi p =
        extractPdfFromFile fsSize pdfCollab compressFn maxW maxH maxSize pdfDpi q) := by
  constructor
  · rintro fsRead extname compressFn maxW maxH maxSize
      ⟨fp1, r1, mw1, mh1, fx1, fc1⟩ ⟨fp2, r2, mw2, mh2, fx2, fc2⟩ h1 h2 h3
    simp only at h1 h2 h3
    subst h1; subst h2; subst h3
    rfl
  · rintro fsSize pdfCollab compressFn maxW maxH maxSize pdfDpi
      ⟨fp1, pg1, r1, mw1, mh1, fx1, fc1⟩ ⟨fp2, pg2, r2, mw2, mh2, fx2, fc2⟩ h1 h2 h3 h4
    simp only at h1 h2 h3 h4
    subst h1; subst h2; subst h3; subst h4
    rfl

/-- Witness for `resize_params_no_effect`: flipping `resize` and shrinking
`max_width`/`max_height` leaves both entry points' results unchanged. -/
theorem resize_params_no_effect_witness :
    extractImageFromFile (fun _ => some ⟨100, 100, "png", 7, 1000⟩) (fun _ => ".png")
        (fun i _ => some i) 512 512 52428800 ⟨"a.png", true, 512, 512, none, none⟩ =
      extractImageFromFile (fun _ => some ⟨100, 100, "png", 7, 1000⟩) (fun _ => ".png")
        (fun i _ => some i) 512 512 52428800 ⟨"a.png", false, 99, 7, none, none⟩ ∧
    extractPdfFromFile (fun _ => some 1000)
        (fun _ _ => .ok ⟨3, fun _ => ⟨100, 100, "png", 7, 1000⟩⟩)
        (fun i _ => some i) 512 512 52428800 150 ⟨"a.pdf", 1, true, 512, 512, none, none⟩ =
      extractPdfFromFile (fun _ => some 1000)
        (fun _ _ => .ok ⟨3, fun _ => ⟨100, 100, "png", 7, 1000⟩⟩)
        (fun i _ => some i) 512 512 52428800 150 ⟨"a.pdf", 1, false, 99, 7, none, none⟩ :=
  ⟨resize_params_no_effect.1 _ _ _ 512 512 52428800
      ⟨"a.png", true, 512, 512, none, none⟩ ⟨"a.png", false, 99, 7, none, none⟩ rfl rfl rfl,
   resize_params_no_effect.2 _ _ _ 512 512 52428800 150
      ⟨"a.pdf", 1, true, 512, 512, none, none⟩ ⟨"a.pdf", 1, false, 99, 7, none, none⟩
      rfl rfl rfl rfl⟩

end ImgX

namespace ImgX

theorem lookup_objSet_ne (l : List (String × JsonVal)) (k k0 : String) (v : JsonVal)
    (h : k0 ≠ k) : List.lookup k0 (objSet l k v) = List.lookup k0 l := by
  induction l with
  | nil =>
    simp [objSet, List.lookup, beq_eq_false_iff_ne.mpr h]
  | cons hd tl ih =>
    obtain ⟨k', v'⟩ := hd
    by_cases hk : k' = k
    · subst hk
      simp [objSet, List.lookup, beq_eq_false_iff_ne.mpr h]
    · simp only [objSet, if_neg hk]
      by_cases hk0 : k0 = k'
      · subst hk0
        simp [List.lookup]
      · simp [List.lookup, beq_eq_false_iff_ne.mpr hk0, ih]

theorem resultMetadata_lookup_totalPages (compressFn : Image → String → Option Image)
    (maxW maxH : ℕ) (img : Image) (fx fc : Option (List ℚ)) (page : ℚ) (N : ℕ) (dpi : ℚ) :
    List.lookup "totalPages" (resultMetadata compressFn maxW maxH
      { imageBuffer := img, format := "png", mimeType := "image/png",
        focus_xyxy := fx, focal_point := fc,
        extraMetadata := [("source", .str "pdf"), ("page", .num page),
                          ("totalPages", .num N), ("dpi", .num dpi)] }) =
      some (.num N) := by
  unfold resultMetadata
  dsimp only
  split
  · rw [lookup_objSet_ne _ _ _ _ (by decide)]
    rfl
  · rfl

end ImgX

namespace ImgX

/-- C3: when the document opens and its page count is determined, a requested page
outside `[1, pageCount]` yields an error response whose message contains both the
requested page number and the total page count, while a page inside the range yields
a successful (non-error) response whose metadata field `totalPages` equals the
document's page count. -/
theorem pdf_page_range (pdfCollab : String → ℚ → Except String PdfDoc)
    (compressFn : Image → String → Option Image) (maxW maxH : ℕ) (defaultDpi : ℚ)
    (input : String) (params : ReadVisualParams) (doc : PdfDoc)
    (hopen : pdfCollab input ((params.dpi.getD defaultDpi) / 72) = .ok doc)
    (hpc : doc.pageCount ≠ 0) :
    ((params.page.getD 1 < 1 ∨ (doc.pageCount : ℤ) < params.page.getD 1) →
      ∃ m, processPdf pdfCollab compressFn maxW maxH defaultDpi input params =
          { content := [ContentPart.text m], isError := true } ∧
        (∃ a b : String, m = a ++ toString (params.page.getD 1) ++ b) ∧
        (∃ a b : String, m = a ++ toString doc.pageCount ++ b)) ∧
    ((1 ≤ params.page.getD 1 ∧ params.page.getD 1 ≤ (doc.pageCount : ℤ)) →
      (processPdf pdfCollab compressFn maxW maxH defaultDpi input params).isError = false ∧
      ∃ md rest,
        (processPdf pdfCollab compressFn maxW maxH defaultDpi input params).content =
          ContentPart.text (jsonStringify md) :: rest ∧
        List.lookup "totalPages" md = some (.num doc.pageCount)) := by
  have h0 : (doc.pageCount == 0) = false := by simpa using hpc
  constructor
  · intro hout
    have hcond : (params.page.getD 1 < 1 || (doc.pageCount : ℤ) < params.page.getD 1) = true := by
      rcases hout with h | h <;> simp [h]
    have hres : processPdf pdfCollab compressFn maxW maxH defaultDpi input params =
        { content := [ContentPart.text ("Error: " ++
            ("Page " ++ toString (params.page.getD 1) ++
             " is out of range. Document has " ++ toString doc.pageCount ++ " page(s)."))]
          isError := true } := by
      unfold processPdf renderPdfPage
      dsimp only
      rw [hopen]
      dsimp only
      rw [h0, hcond]
      simp
    refine ⟨_, hres.trans (by rfl), ?_, ?_⟩
    · exact ⟨"Error: " ++ "Page ",
        " is out of range. Document has " ++ toString doc.pageCount ++ " page(s).",
        by simp only [← String.append_assoc]⟩
    · exact ⟨"Error: " ++ "Page " ++ toString (params.page.getD 1) ++
          " is out of range. Document has ",
        " page(s).",
        by simp only [← String.append_assoc]⟩
  · rintro ⟨hlo, hhi⟩
    have hcond : (params.page.getD 1 < 1 || (doc.pageCount : ℤ) < params.page.getD 1) = false := by
      simp only [Bool.or_eq_false_iff, decide_eq_false_iff_not, not_lt]
      exact ⟨hlo, hhi⟩
    have hres : processPdf pdfCollab compressFn maxW maxH defaultDpi input params =
        processImageBuffer compressFn maxW maxH
          { imageBuffer := doc.pageImage (params.page.getD 1).toNat
            format := "png"
            mimeType := "image/png"
            focus_xyxy := params.focus_xyxy
            focal_point := params.focal_point
            extraMetadata :=
              [("source", .str "pdf"), ("page", .num (params.page.getD 1)),
               ("totalPages", .num doc.pageCount),
               ("dpi", .num (params.dpi.getD defaultDpi))] } := by
      unfold processPdf renderPdfPage
      dsimp only
      rw [hopen]
      dsimp only
      rw [h0, hcond]
      simp
    constructor
    · rw [hres]
      rfl
    · rw [hres]
      refine ⟨resultMetadata compressFn maxW maxH
        { imageBuffer := doc.pageImage (params.page.getD 1).toNat
          format := "png"
          mimeType := "image/png"
          focus_xyxy := params.focus_xyxy
          focal_point := params.focal_point
          extraMetadata :=
            [("source", .str "pdf"), ("page", .num (params.page.getD 1)),
             ("totalPages", .num doc.pageCount),
             ("dpi", .num (params.dpi.getD defaultDpi))] },
        [ContentPart.image (imgBase64 (afterCompressImage compressFn maxW maxH
          { imageBuffer := doc.pageImage (params.page.getD 1).toNat
            format := "png"
            mimeType := "image/png"
            focus_xyxy := params.focus_xyxy
            focal_point := params.focal_point
            extraMetadata :=
              [("source", .str "pdf"), ("page", .num (params.page.getD 1)),
               ("totalPages", .num doc.pageCount),
               ("dpi", .num (params.dpi.getD defaultDpi))] })) "image/png"],
        rfl, ?_⟩
      exact resultMetadata_lookup_totalPages compressFn maxW maxH _ _ _ _ _ _

/-- Witness for `pdf_page_range`: a two-page document rejects page 5 with a message
naming 5 and 2, and accepts page 1 reporting `totalPages = 2`. -/
theorem pdf_page_range_witness :
    (∃ m, processPdf (fun _ _ => .ok ⟨2, fun _ => ⟨100, 100, "png", 7, 900⟩⟩)
          (fun i _ => some i) 512 512 150 "doc.pdf" ⟨"doc.pdf", some 5, none, none, none, none⟩ =
        { content := [ContentPart.text m], isError := true } ∧
      (∃ a b : String, m = a ++ toString ((5:ℤ)) ++ b) ∧
      (∃ a b : String, m = a ++ toString (2:ℕ) ++ b)) ∧
    ((processPdf (fun _ _ => .ok ⟨2, fun _ => ⟨100, 100, "png", 7, 900⟩⟩)
          (fun i _ => some i) 512 512 150 "doc.pdf"
          ⟨"doc.pdf", some 1, none, none, none, none⟩).isError = false ∧
      ∃ md rest,
        (processPdf (fun _ _ => .ok ⟨2, fun _ => ⟨100, 100, "png", 7, 900⟩⟩)
            (fun i _ => some i) 512 512 150 "doc.pdf"
            ⟨"doc.pdf", some 1, none, none, none, none⟩).content =
          ContentPart.text (jsonStringify md) :: rest ∧
        List.lookup "totalPages" md = some (.num (2:ℕ))) := by
  constructor
  · exact (pdf_page_range (fun _ _ => .ok ⟨2, fun _ => ⟨100, 100, "png", 7, 900⟩⟩)
      (fun i _ => some i) 512 512 150 "doc.pdf" ⟨"doc.pdf", some 5, none, none, none, none⟩
      ⟨2, fun _ => ⟨100, 100, "png", 7, 900⟩⟩ rfl (by norm_num)).1 (by norm_num)
  · exact (pdf_page_range (fun _ _ => .ok ⟨2, fun _ => ⟨100, 100, "png", 7, 900⟩⟩)
      (fun i _ => some i) 512 512 150 "doc.pdf" ⟨"doc.pdf", some 1, none, none, none, none⟩
      ⟨2, fun _ => ⟨100, 100, "png", 7, 900⟩⟩ rfl (by norm_num)).2 (by norm_num)

end ImgX

namespace ImgX

theorem size_msg_ne (t : String) :
    "Error: Image size exceeds maximum allowed size of " ++ t ≠
      "Error: Invalid base64 string - decoded to empty buffer" := by
  intro h
  have h2 := congrArg String.data h
  rw [String.data_append] at h2
  have h3 := congrArg (fun l => l.get? 8) h2
  simp at h3

theorem decode_msg_ne (t : String) :
    "Error: Could not process image data - " ++ t ≠
      "Error: Invalid base64 string - decoded to empty buffer" := by
  intro h
  have h2 := congrArg String.data h
  rw [String.data_append] at h2
  have h3 := congrArg (fun l => l.get? 7) h2
  simp at h3

theorem parseDataUrl_starts {s : String} {pr : String × String}
    (hp : parseDataUrl s = some pr) : strStarts s "data:" = true := by
  cases hs : strStarts s "data:" with
  | true => rfl
  | false =>
    unfold parseDataUrl at hp
    rw [hs] at hp
    simp at hp

/-- C6 (amended): the unified `read_visual` inline-data path (`handleBase64`)
reports the invalid-base64 error whenever its structural validation fails — for a
well-formed data URL whose payload fails `isValidBase64`, and for a raw source whose
whitespace-stripped text fails `isValidBase64`.  The `extract_image_from_base64`
entry point, by contrast, performs no structural validation: it reports the
invalid-base64 message exactly when Node's forgiving decode yields zero bytes. -/
theorem invalid_encoding_handling :
    (∀ (maxSize : ℕ) (source : String) (mimeHint : Option String) (mime payload : String),
      parseDataUrl source = some (mime, payload) →
      isValidBase64 payload = false →
      handleBase64Validation maxSize source mimeHint = .invalidB64) ∧
    (∀ (maxSize : ℕ) (source : String) (mimeHint : Option String),
      strStarts source "data:" = false →
      isValidBase64 ⟨stripWsL source.data⟩ = false →
      handleBase64Validation maxSize source mimeHint = .invalidB64) ∧
    (∀ (sharpDecode : String → Except String Image)
       (compressFn : Image → String → Option Image) (maxW maxH maxSize : ℕ)
       (p : ExtractImageFromBase64Params),
      extractImageFromBase64 sharpDecode compressFn maxW maxH maxSize p =
          { content := [ContentPart.text "Error: Invalid base64 string - decoded to empty buffer"]
            isError := true } ↔
        nodeBase64DecodedLen p.base64 = 0) := by
  refine ⟨?_, ?_, ?_⟩
  · intro maxSize source mimeHint mime payload hp hv
    have hs := parseDataUrl_starts hp
    unfold handleBase64Validation
    rw [hs]
    dsimp only
    rw [hp]
    simp [hv]
  · intro maxSize source mimeHint hs hv
    unfold handleBase64Validation
    rw [hs]
    simp [hv]
  · intro sharpDecode compressFn maxW maxH maxSize p
    constructor
    · intro hres
      by_cases hb : nodeBase64DecodedLen p.base64 = 0
      · exact hb
      · exfalso
        have hb' : (nodeBase64DecodedLen p.base64 == 0) = false := by simpa using hb
        unfold extractImageFromBase64 at hres
        dsimp only at hres
        rw [hb'] at hres
        simp only [Bool.false_eq_true, if_false] at hres
        split at hres
        · simp only [McpToolResponse.mk.injEq, List.cons.injEq, ContentPart.text.injEq,
            and_true, true_and] at hres
          rw [String.append_assoc] at hres
          exact size_msg_ne _ hres
        · cases hd : sharpDecode p.base64 with
          | error e =>
            rw [hd] at hres
            simp only [McpToolResponse.mk.injEq, List.cons.injEq, ContentPart.text.injEq,
              and_true, true_and] at hres
            exact decode_msg_ne _ hres
          | ok img =>
            rw [hd] at hres
            have := congrArg McpToolResponse.isError hres
            simp [processImageBuffer] at this
    · intro hb
      have hb' : (nodeBase64DecodedLen p.base64 == 0) = true := by simpa using hb
      unfold extractImageFromBase64
      dsimp only
      rw [hb']
      simp

/-- Witness for `invalid_encoding_handling`: a raw non-data-URL source failing
structural validation is rejected by `handleBase64` with the invalid-base64 error,
and an empty inline payload makes `extract_image_from_base64` report the
empty-decode invalid-base64 error. -/
theorem invalid_encoding_handling_witness :
    handleBase64Validation 52428800 "!!!" none = .invalidB64 ∧
    extractImageFromBase64 (fun _ => .error "e") (fun i _ => some i) 512 512 52428800
        ⟨"", "image/png", none, none⟩ =
      { content := [ContentPart.text "Error: Invalid base64 string - decoded to empty buffer"]
        isError := true } :=
  ⟨invalid_encoding_handling.2.1 52428800 "!!!" none (by decide) (by decide),
   (invalid_encoding_handling.2.2 (fun _ => .error "e") (fun i _ => some i) 512 512 52428800
      ⟨"", "image/png", none, none⟩).mpr (by decide)⟩

/-- Counterexample to C6 as stated: the inline-data entry point
`extract_image_from_base64` does not structurally validate its input.  The string
`"AAAAA"` fails structural base64 validation (its length is not a multiple of 4),
yet Node's forgiving decoder yields 3 bytes, so the entry point does not produce the
invalid-base64 (InvalidEncoding) error: it hands the bytes to the image decoder and
surfaces that decoder's failure message instead. -/
theorem invalid_encoding_counterexample :
    specStructuralB64 "AAAAA" = false ∧
    nodeBase64DecodedLen "AAAAA" = 3 ∧
    extractImageFromBase64 (fun _ => .error "unsupported image format")
        (fun i _ => some i) 512 512 52428800 ⟨"AAAAA", "image/png", none, none⟩ =
      { content := [ContentPart.text
          "Error: Could not process image data - unsupported image format"]
        isError := true } ∧
    extractImageFromBase64 (fun _ => .error "unsupported image format")
        (fun i _ => some i) 512 512 52428800 ⟨"AAAAA", "image/png", none, none⟩ ≠
      { content := [ContentPart.text "Error: Invalid base64 string - decoded to empty buffer"]
        isError := true } := by
  refine ⟨by decide, by decide, by decide, by decide⟩

end ImgX

namespace ImgX

theorem badChar_no_b64 {l : List Char} {c : Char} (hc : c ∈ l)
    (hws : isJsSpace c = false) (hal : isBase64Char c = false) (hne : c ≠ '=') :
    b64BodyPad (stripWsL l) = false := by
  have hmem : c ∈ stripWsL l := List.mem_filter.mpr ⟨hc, by simp [hws]⟩
  have hrev : c ∈ (stripWsL l).reverse := List.mem_reverse.mpr hmem
  rw [← List.takeWhile_append_dropWhile (fun x => x == '=') (stripWsL l).reverse] at hrev
  rcases List.mem_append.mp hrev with h1 | h2
  · have heq := List.mem_takeWhile_imp h1
    simp only [beq_iff_eq] at heq
    exact absurd heq hne
  · have hall : ((stripWsL l).reverse.dropWhile (fun x => x == '=')).all isBase64Char = false := by
      apply Bool.eq_false_iff.mpr
      intro hT
      have := List.all_eq_true.mp hT c h2
      rw [hal] at this
      exact Bool.false_ne_true this
    unfold b64BodyPad
    simp [hall]

theorem gap_aux (l : List Char) (hdot : dotSep l = true) (hs : leadingSlash l = false)
    (hds : (['.', '/'] : List Char).isPrefixOf l = false)
    (hdds : (['.', '.', '/'] : List Char).isPrefixOf l = false) :
    b64BodyPad (stripWsL l) = false := by
  match l, hdot, hs, hds, hdds with
  | c :: rest, hdot, hs, hds, hdds =>
    by_cases hc : c = '.'
    · subst hc
      match rest, hdot, hds, hdds with
      | c2 :: rest2, hdot, hds, hdds =>
        by_cases hc2 : c2 = '.'
        · subst hc2
          match rest2, hdot, hdds with
          | c3 :: rest3, hdot, hdds =>
            have hsep : isSep c3 = true := by
              simpa [dotSep] using hdot
            rcases (by simpa [isSep] using hsep : c3 = '\\' ∨ c3 = '/') with h3 | h3
            · exact badChar_no_b64 (List.mem_cons_self _ _) (by decide) (by decide) (by decide)
            · subst h3
              exfalso
              simp [List.isPrefixOf] at hdds
          | [], hdot, hdds =>
            exact absurd hdot (by simp [dotSep])
        · have hsep : isSep c2 = true := by
            simpa [dotSep, beq_iff_eq, hc2] using hdot
          rcases (by simpa [isSep] using hsep : c2 = '\\' ∨ c2 = '/') with h2 | h2
          · exact badChar_no_b64 (List.mem_cons_self _ _) (by decide) (by decide) (by decide)
          · subst h2
            exfalso
            simp [List.isPrefixOf] at hds
      | [], hdot, hds, hdds =>
        exact absurd hdot (by simp [dotSep])
    · have hsep : isSep c = true := by
        simpa [dotSep, beq_iff_eq, hc] using hdot
      rcases (by simpa [isSep] using hsep : c = '\\' ∨ c = '/') with h1 | h1
      · subst h1
        exact badChar_no_b64 (List.mem_cons_self _ _) (by decide) (by decide) (by decide)
      · subst h1
        exfalso
        simp [leadingSlash] at hs

theorem valid_eq_spec (s : String) : isValidBase64 s = specLooksB64 s := by
  unfold isValidBase64 specLooksB64
  by_cases hlen : s.length < 100
  · have h1 : (decide (100 ≤ s.length)) = false := by simp; omega
    rw [if_pos hlen, h1]
    simp
  · have h1 : (decide (100 ≤ s.length)) = true := by simp; omega
    rw [if_neg hlen, h1]
    dsimp only
    by_cases h4 : (stripWsL s.data).length % 4 = 0
    · simp [h4]
    · simp [h4]

theorem spec_shape_imp_code (s : String) (h : specFilePathShape s = true) :
    isFilePath s = true := by
  unfold specFilePathShape at h
  unfold isFilePath
  simp only [Bool.or_eq_true] at h ⊢
  rcases h with ((((hd | hu) | hs) | hds) | hdds) | he
  · exact Or.inl (Or.inl (Or.inl (Or.inl hd)))
  · exact Or.inl (Or.inl (Or.inl (Or.inr hu)))
  · exact Or.inl (Or.inl (Or.inr hs))
  · -- leading "./" implies the ^\.{0,2}[\\/] pattern
    refine Or.inl (Or.inr ?_)
    unfold strStarts at hds
    rw [List.isPrefixOf_iff_prefix] at hds
    obtain ⟨t, ht⟩ := hds
    have hdata : s.data = '.' :: '/' :: t := by
      rw [← ht]
      rfl
    rw [hdata]
    simp [dotSep, isSep]
  · -- leading "../" implies the ^\.{0,2}[\\/] pattern
    refine Or.inl (Or.inr ?_)
    unfold strStarts at hdds
    rw [List.isPrefixOf_iff_prefix] at hdds
    obtain ⟨t, ht⟩ := hdds
    have hdata : s.data = '.' :: '.' :: '/' :: t := by
      rw [← ht]
      rfl
    rw [hdata]
    simp [dotSep, isSep]
  · exact Or.inr he

theorem gap_no_spec_b64 (s : String) (hcode : isFilePath s = true)
    (hspec : specFilePathShape s = false) : specLooksB64 s = false := by
  unfold isFilePath at hcode
  unfold specFilePathShape at hspec
  simp only [Bool.or_eq_false_iff] at hspec
  obtain ⟨⟨⟨⟨⟨hd, hu⟩, hs⟩, hds⟩, hdds⟩, he⟩ := hspec
  simp only [Bool.or_eq_true, hd, hu, hs, he, Bool.false_eq_true, or_false, false_or] at hcode
  have hds' : (['.', '/'] : List Char).isPrefixOf s.data = false := by
    have heq : strStarts s "./" = (['.', '/'] : List Char).isPrefixOf s.data := rfl
    rw [← heq]
    exact hds
  have hdds' : (['.', '.', '/'] : List Char).isPrefixOf s.data = false := by
    have heq : strStarts s "../" = (['.', '.', '/'] : List Char).isPrefixOf s.data := rfl
    rw [← heq]
    exact hdds
  have hpad : b64BodyPad (stripWsL s.data) = false := gap_aux s.data hcode hs hds' hdds'
  unfold specLooksB64
  rw [hpad]
  simp

/-- C5: the source classifier is a pure total function on reference strings and
implements exactly the first-match decision order stated by the specification:
`http(s)://` prefix → url, `data:` prefix → inline data, filesystem-path shape
(drive letter, UNC, leading `/`, leading `./` or `../`, or short no-space
dot-extension) → file path, plausible base64 → inline data, and file path as the
last resort. -/
theorem source_classifier_matches_spec (s : String) :
    detectSourceType s = specClassify s := by
  unfold detectSourceType specClassify
  by_cases h1 : (strStarts s "http://" || strStarts s "https://") = true
  · rw [h1]
    rfl
  · have h1' : (strStarts s "http://" || strStarts s "https://") = false :=
      Bool.eq_false_iff.mpr h1
    rw [h1']
    simp only [Bool.false_eq_true, if_false]
    by_cases h2 : strStarts s "data:" = true
    · rw [h2]
      rfl
    · have h2' : strStarts s "data:" = false := Bool.eq_false_iff.mpr h2
      rw [h2']
      simp only [Bool.false_eq_true, if_false]
      by_cases hspec : specFilePathShape s = true
      · have hcode := spec_shape_imp_code s hspec
        rw [hspec, hcode]
        rfl
      · have hspec' : specFilePathShape s = false := Bool.eq_false_iff.mpr hspec
        by_cases hcode : isFilePath s = true
        · have hb : specLooksB64 s = false := gap_no_spec_b64 s hcode hspec'
          rw [hspec', hcode, hb]
          simp
        · have hcode' : isFilePath s = false := Bool.eq_false_iff.mpr hcode
          rw [hspec', hcode', valid_eq_spec]

end ImgX

namespace ImgX

theorem detectSourceType_checks :
    detectSourceType "https://example.com/a.png" = .url ∧
    detectSourceType "data:image/png;base64,iVBORw0KGgo=" = .base64 ∧
    detectSourceType "C:\\images\\photo.jpg" = .file ∧
    detectSourceType "./relative/pic.png" = .file ∧
    detectSourceType "photo.png" = .file ∧
    detectSourceType (String.mk (List.replicate 100 'A')) = .base64 ∧
    detectSourceType "hello world" = .file := by
  refine ⟨by decide, by decide, by decide, by decide, by decide, by decide, by decide⟩

theorem focal_point_pixel_check :
    applyImageFocus 100 100 none (some [(50:ℚ), 50, 20, 20]) = some ⟨30, 30, 40, 40⟩ := by
  norm_num [applyImageFocus, rawRect, clampRect, isRatio, validFour, jsRound_eq,
    Int.floor_eq_iff]

theorem focal_point_ratio_check :
    applyImageFocus 100 100 none (some [(1:ℚ)/2, 1/2, 1/5, 1/5]) = some ⟨30, 30, 40, 40⟩ := by
  norm_num [applyImageFocus, rawRect, clampRect, isRatio, validFour, jsRound_eq,
    Int.floor_eq_iff]

end ImgX
